import Mathlib

/-!
Verification of the live-auction server (the event-scoped variant of the
repository: the source file with `event:join`, `payment:confirm` and the
expiry sweep).  The socket handlers are embedded as pure functions over an
explicit server state; JavaScript numbers are modelled as rationals together
with an explicit IEEE-754 binary64 rounding step for the operations whose
rounding is observable (`minAcceptable + Number.EPSILON`,
`minAcceptable + minIncrement`, and the deadline additions).
-/

namespace Auction

/-! ## JavaScript numbers

Amounts, timestamps and configuration values are IEEE-754 binary64 values in
the source.  We model them as rationals.  Comparisons (`<`, `>=`, `Math.max`)
on binary64 values are exact, so they are plain rational comparisons; `+` and
`*` are the exact rational operations followed by `floatRound`, which rounds
to the nearest representable binary64 value (round-to-nearest, ties-to-even).
The rounding model covers the normal (non-subnormal, non-overflowing) range,
which contains every value arising in this program.

The arithmetic helpers below (`qAdd`, `qMul`, `qNeg`, `qMax`, `qOfNat`) are
computable unfoldings of the standard rational operations, stated to be equal
to them by the bridging lemmas that follow; they exist only so that concrete
runs of the model evaluate inside the kernel. -/

/-- Exact rational addition, written via `Rat.divInt` so it evaluates. -/
def qAdd (a b : ℚ) : ℚ :=
  Rat.divInt (a.num * (b.den : ℤ) + b.num * (a.den : ℤ)) ((a.den : ℤ) * (b.den : ℤ))

/-- Exact rational multiplication, written via `Rat.divInt` so it evaluates. -/
def qMul (a b : ℚ) : ℚ := Rat.divInt (a.num * b.num) ((a.den : ℤ) * (b.den : ℤ))

/-- Exact rational negation, written via `Rat.divInt` so it evaluates. -/
def qNeg (a : ℚ) : ℚ := Rat.divInt (-a.num) (a.den : ℤ)

/-- The larger of two rationals; models `Math.max` on (finite) numbers. -/
def qMax (a b : ℚ) : ℚ := if a ≤ b then b else a

/-- A natural number as a rational. -/
def qOfNat (n : ℕ) : ℚ := Rat.divInt (Int.ofNat n) 1

/-- Normalize a positive rational into the binade `[1, 2)`, returning the
binary exponent `e` with `2 ^ e ≤ q < 2 ^ (e + 1)`.  Fuel-structural so that
the kernel can evaluate it; 1200 steps cover the whole binary64 range. -/
def findExpo : ℕ → ℚ → ℤ → ℤ
  | 0, _, e => e
  | fuel + 1, q, e =>
    if q < 1 then findExpo fuel (Rat.divInt (2 * q.num) (q.den : ℤ)) (e - 1)
    else if 2 ≤ q then findExpo fuel (Rat.divInt q.num (2 * (q.den : ℤ))) (e + 1)
    else e

/-- `2 ^ e` as a rational, for an integer exponent. -/
def pow2 (e : ℤ) : ℚ :=
  if 0 ≤ e then Rat.divInt (Int.ofNat (2 ^ e.toNat)) 1
  else Rat.divInt 1 (Int.ofNat (2 ^ (-e).toNat))

/-- Round a nonnegative rational to the nearest integer, ties to even. -/
def roundHalfEvenPos (q : ℚ) : ℕ :=
  let f : ℕ := q.num.toNat / q.den
  let r : ℚ := qAdd q (qNeg (qOfNat f))
  if r < Rat.divInt 1 2 then f
  else if Rat.divInt 1 2 < r then f + 1
  else if f % 2 = 0 then f else f + 1

/-- Round a positive rational to the nearest binary64 value
(round-to-nearest, ties-to-even), in the normal range. -/
def floatRoundPos (q : ℚ) : ℚ :=
  let e := findExpo 1200 q 0
  let u := e - 52
  qMul (qOfNat (roundHalfEvenPos (qMul q (pow2 (-u))))) (pow2 u)

/-- Round a rational to the nearest binary64 value (normal range). -/
def floatRound (q : ℚ) : ℚ :=
  if q = 0 then 0
  else if q < 0 then qNeg (floatRoundPos (qNeg q))
  else floatRoundPos q

/-- Binary64 addition: the exact sum, rounded. -/
def jsAdd (x y : ℚ) : ℚ := floatRound (qAdd x y)

/-- Binary64 multiplication: the exact product, rounded. -/
def jsMul (x y : ℚ) : ℚ := floatRound (qMul x y)

/-- `Number.EPSILON`, i.e. `2 ^ (-52)`. -/
def jsEpsilon : ℚ := Rat.divInt 1 4503599627370496

/-- A JavaScript number as it arrives in a payload: a finite value, `NaN`
(also the result of `Number(x)` for `undefined`, `null`, `""` or a
non-numeric string; the flag records whether the raw payload value was
truthy, which only matters for the `durationSeconds || 60` default), or an
infinity (`isFinite` is false; the sign never matters in this program
because every use checks finiteness first). -/
inductive JsNum where
  | fin (q : ℚ)
  | nan (truthy : Bool)
  | inf
deriving DecidableEq

/-- JavaScript `v || d` for a numeric payload value `v` (used only by
`host:startTimer` as `durationSeconds || 60`): a falsy value (`0`, `NaN`,
`undefined`, `null`, `""`) is replaced by the default. -/
def JsNum.jsOr (v : JsNum) (d : ℚ) : JsNum :=
  match v with
  | fin q => if q = 0 then fin d else fin q
  | nan t => if t then nan t else fin d
  | inf => inf

/-! ## String and truthiness helpers -/

/-- JavaScript `String(x).trim()`, modelled over the character list. -/
def jsTrim (s : String) : String :=
  ⟨((s.data.dropWhile Char.isWhitespace).reverse.dropWhile Char.isWhitespace).reverse⟩

/-- JavaScript `String(x).toLowerCase()` for the ASCII role strings. -/
def jsToLower (s : String) : String := ⟨s.data.map Char.toLower⟩

/-- Truthiness of a nullable string: `null` and `""` are falsy. -/
def truthyS (o : Option String) : Bool :=
  match o with
  | none => false
  | some s => s ≠ ""

/-- Truthiness of a nullable number: `null` and `0` are falsy. -/
def truthyQ (o : Option ℚ) : Bool :=
  match o with
  | none => false
  | some q => q ≠ 0

/-- JavaScript `s || null` for a nullable string (used for `imageUrl`). -/
def jsOrNullS (o : Option String) : Option String :=
  match o with
  | none => none
  | some s => if s = "" then none else some s

/-- JavaScript `itemId || null` for a nullable id. -/
def jsOrNullN (o : Option ℕ) : Option ℕ :=
  match o with
  | none => none
  | some n => if n = 0 then none else some n

/-! ## Data model

Mirrors the in-memory store of the server: events own items, each connection
(socket) carries mutable session data.  Field names follow the source. -/

/-- Connection role; `socket.data.role`, server-assigned by `auth`. -/
inductive Role where
  | host
  | bidder
  | guest
deriving DecidableEq

/-- Item status: `"open" | "sold" | "closed"`.  `open'` models `"open"`
(`open` is a Lean keyword). -/
inductive ItemStatus where
  | open'
  | sold
  | closed
deriving DecidableEq

/-- Payment sub-state: `"none" | "pending" | "confirmed" | "expired"`.
`pnone` models `"none"`. -/
inductive PayStatus where
  | pnone
  | pending
  | confirmed
  | expired
deriving DecidableEq

/-- The mock payment profile stored by `profile:setup`. -/
structure PayProfile where
  name : String
  email : String
  last4 : String
  deliveryAddress : String
deriving DecidableEq

/-- One entry of an item's `bidHistory`: `{name, amount, time}`. -/
structure BidEntry where
  name : String
  amount : ℚ
  time : ℚ
deriving DecidableEq

/-- An auction item. -/
structure Item where
  id : ℕ
  title : String
  description : String
  openingBid : ℚ
  currentBid : ℚ
  currentWinner : Option String
  bidHistory : List BidEntry
  status : ItemStatus
  endTime : Option ℚ
  imageUrl : Option String
  paymentStatus : PayStatus
  paymentDueAt : Option ℚ
  paymentWinnerName : Option String
deriving DecidableEq

/-- An auction event.  `participants` models the `Set<string>` of bound
display names as a duplicate-free list. -/
structure Event where
  id : ℕ
  name : String
  location : String
  isProtected : Bool
  password : String
  items : List Item
  minIncrement : ℚ
  currentLotId : Option ℕ
  participants : List String
  active : Bool
deriving DecidableEq

/-- Per-connection session data (`socket.data`). -/
structure Session where
  role : Role
  eventId : Option ℕ
  nameLocked : Bool
  displayName : Option String
  paymentProfile : Option PayProfile
deriving DecidableEq

/-- The whole server state: the `events` array, the id counters, and the set
of live connections (socket id to session data). -/
structure Srv where
  events : List Event
  nextEventId : ℕ
  nextItemId : ℕ
  conns : List (ℕ × Session)
deriving DecidableEq

/-- The state at process start. -/
def initialSrv : Srv := ⟨[], 1, 1, []⟩

/-- Every distinct `throw new Error(...)` site of the embedded handlers,
carrying the values the source interpolates into the message. -/
inductive Err where
  | invalidHostPassword
  | nameRequired
  | emailRequired
  | completeProfileFirst
  | switchToBidder
  | eventNotFound
  | wrongEventPassword
  | enterName
  | nameChangeDenied
  | nameTaken
  | hostOnly
  | eventNameRequired
  | locationRequired
  | passwordRequired
  | valueNonneg
  | titleRequired
  | openingBidInvalid
  | notFound
  | itemNotOpen
  | badDuration
  | itemNotFound
  | onlyBidders
  | joinFirst
  | nameLockedErr
  | biddingClosed (st : ItemStatus)
  | timeUp
  | amountPositive
  | bidTooLowInc (minIncrement required : ℚ)
  | bidTooLow (minAcceptable : ℚ)
  | itemNotSold
  | noPendingPayment
  | setupProfileFirst
  | onlyWinner
  | paymentExpired
deriving DecidableEq

/-! ## Lookup and update helpers -/

/-- `getEvent(id)`: first event with the given id. -/
def getEvent (st : Srv) (id : ℕ) : Option Event :=
  st.events.find? (fun e => e.id == id)

/-- `getItem(event, itemId)`: first item of the event with the given id,
`none` when the event itself is missing (`event?.items.find(...)`). -/
def getItem (ev : Option Event) (itemId : ℕ) : Option Item :=
  match ev with
  | none => none
  | some e => e.items.find? (fun i => i.id == itemId)

/-- Replace the first element satisfying `p`, like mutating the object
returned by `Array.prototype.find`. -/
def modifyFirst {α : Type} (p : α → Bool) (g : α → α) : List α → List α
  | [] => []
  | x :: rest => if p x then g x :: rest else x :: modifyFirst p g rest

/-- Replace the first item with the given id. -/
def modifyItems (l : List Item) (iid : ℕ) (f : Item → Item) : List Item :=
  modifyFirst (fun i => i.id == iid) f l

/-- Replace the first event with the given id. -/
def modifyEvents (l : List Event) (eid : ℕ) (f : Event → Event) : List Event :=
  modifyFirst (fun e => e.id == eid) f l

/-- Replace the session of the given socket. -/
def modifyConns (l : List (ℕ × Session)) (sid : ℕ) (f : Session → Session) :
    List (ℕ × Session) :=
  modifyFirst (fun c => c.1 == sid) (fun c => (c.1, f c.2)) l

/-- Mutate the event with the given id. -/
def updEvent (st : Srv) (eid : ℕ) (f : Event → Event) : Srv :=
  { st with events := modifyEvents st.events eid f }

/-- Mutate the item with the given id inside the event with the given id. -/
def updItem (st : Srv) (eid iid : ℕ) (f : Item → Item) : Srv :=
  updEvent st eid (fun ev => { ev with items := modifyItems ev.items iid f })

/-- Mutate the session of the given socket. -/
def updConn (st : Srv) (sid : ℕ) (f : Session → Session) : Srv :=
  { st with conns := modifyConns st.conns sid f }

/-- Session data of a socket. -/
def lookupConn (st : Srv) (sid : ℕ) : Option Session :=
  (st.conns.find? (fun c => c.1 == sid)).map (fun c => c.2)

/-- `Set.add`: append the name if it is not already present. -/
def addParticipant (l : List String) (n : String) : List String :=
  if n ∈ l then l else l ++ [n]

/-- `item.endTime && now >= item.endTime` (truthiness included). -/
def deadlinePassed (endTime : Option ℚ) (now : ℚ) : Bool :=
  match endTime with
  | none => false
  | some t => if t = 0 then false else decide (t ≤ now)

/-- `item.paymentDueAt && now > item.paymentDueAt` (truthiness included). -/
def dueAtPassed (dueAt : Option ℚ) (now : ℚ) : Bool :=
  match dueAt with
  | none => false
  | some t => if t = 0 then false else decide (t < now)

/-! ## Socket handlers

Each handler takes the calling socket id, the payload fields, the current
wall-clock time where the source reads `Date.now()`, and the server state.
It returns the state after the handler ran together with `none` on success
or the raised error.  As in the source, a raised error keeps any mutation
performed before the `throw` (this happens in `placeBid`, which lazily
closes an expired item before throwing, and in `payment:confirm`, which
lazily expires the payment window before throwing).  A call from an unknown
socket id is a no-op (it cannot occur: every command of a run originates
from a connected socket). -/

/-- The site-wide admin password; default `"1234"`. -/
def adminToken : String := "1234"

/-- `isSiteAdmin(token)`. -/
def isSiteAdmin (token : String) : Bool :=
  adminToken ≠ "" && token == adminToken

/-- A new connection: `role = "guest"`, nothing joined, no profile.
A second `connect` for an already-live socket id is a no-op (socket ids are
unique). -/
def connect (sid : ℕ) (st : Srv) : Srv × Option Err :=
  if (st.conns.find? (fun c => c.1 == sid)).isSome then (st, none)
  else ({ st with conns := st.conns ++ [(sid, ⟨Role.guest, none, false, none, none⟩)] }, none)

/-- The `auth` handler: host requires the admin password; anything else
becomes bidder or guest. -/
def auth (sid : ℕ) (role password : String) (st : Srv) : Srv × Option Err :=
  match lookupConn st sid with
  | none => (st, none)
  | some _ =>
    let r := jsToLower role
    if r = "host" then
      if ¬ isSiteAdmin password then (st, some Err.invalidHostPassword)
      else (updConn st sid (fun s => { s with role := Role.host }), none)
    else if r = "bidder" then
      (updConn st sid (fun s => { s with role := Role.bidder }), none)
    else
      (updConn st sid (fun s => { s with role := Role.guest }), none)

/-- The `profile:setup` handler: trims name/email, keeps the last four
characters of the card field, requires non-blank name and email, then binds
`displayName` and stores the profile. -/
def profileSetup (sid : ℕ) (name email cardLast4 deliveryAddress : Option String)
    (st : Srv) : Srv × Option Err :=
  match lookupConn st sid with
  | none => (st, none)
  | some _ =>
    let n := jsTrim (name.getD "")
    let em := jsTrim (email.getD "")
    let last4 := (jsTrim (cardLast4.getD "")).takeRight 4
    if n = "" then (st, some Err.nameRequired)
    else if em = "" then (st, some Err.emailRequired)
    else
      (updConn st sid (fun s =>
        { s with displayName := some n,
                 paymentProfile := some ⟨n, em, last4, deliveryAddress.getD ""⟩ }), none)

/-- The effective join name: the trimmed requested name, falling back to the
session's bound display name when blank
(`String(name || "").trim() || socket.data.displayName`). -/
def joinEffName (name : Option String) (s : Session) : Option String :=
  let t := jsTrim (name.getD "")
  if t = "" then s.displayName else some t

/-- The `event:join` handler. -/
def eventJoin (sid eventId : ℕ) (name password : Option String) (st : Srv) :
    Srv × Option Err :=
  match lookupConn st sid with
  | none => (st, none)
  | some s =>
    if s.paymentProfile = none then (st, some Err.completeProfileFirst)
    else if s.role ≠ Role.bidder then (st, some Err.switchToBidder)
    else match getEvent st eventId with
    | none => (st, some Err.eventNotFound)
    | some ev =>
      if ev.isProtected ∧ (password.getD "") ≠ ev.password then
        (st, some Err.wrongEventPassword)
      else match joinEffName name s with
      | none => (st, some Err.enterName)
      | some n =>
        if n = "" then (st, some Err.enterName)
        else if s.nameLocked ∧ truthyS s.displayName ∧ s.eventId = some ev.id
            ∧ s.displayName ≠ some n then
          (st, some Err.nameChangeDenied)
        else if (¬ s.nameLocked ∨ s.eventId ≠ some ev.id ∨ ¬ truthyS s.displayName)
            ∧ n ∈ ev.participants then
          (st, some Err.nameTaken)
        else
          let st1 :=
            match s.eventId with
            | some pe =>
              if pe ≠ 0 ∧ pe ≠ ev.id ∧ truthyS s.displayName then
                updEvent st pe (fun p =>
                  { p with participants := p.participants.erase (s.displayName.getD "") })
              else st
            | none => st
          let st2 := updConn st1 sid (fun c =>
            { c with eventId := some ev.id, displayName := some n, nameLocked := true })
          let st3 := updEvent st2 ev.id (fun e =>
            { e with participants := addParticipant e.participants n })
          (st3, none)

/-- The `disconnect` handler: release the bound name, drop the session. -/
def disconnect (sid : ℕ) (st : Srv) : Srv × Option Err :=
  match lookupConn st sid with
  | none => (st, none)
  | some s =>
    let st1 :=
      match s.eventId with
      | some eid =>
        if truthyS s.displayName then
          updEvent st eid (fun e =>
            { e with participants := e.participants.erase (s.displayName.getD "") })
        else st
      | none => st
    ({ st1 with conns := st1.conns.filter (fun c => c.1 ≠ sid) }, none)

/-- The `host:createEvent` handler. -/
def hostCreateEvent (sid : ℕ) (name location : Option String) (isProtected : Bool)
    (password : Option String) (st : Srv) : Srv × Option Err :=
  match lookupConn st sid with
  | none => (st, none)
  | some s =>
    if s.role ≠ Role.host then (st, some Err.hostOnly)
    else
      let n := jsTrim (name.getD "")
      let loc := jsTrim (location.getD "")
      let pw := if isProtected then password.getD "" else ""
      if n = "" then (st, some Err.eventNameRequired)
      else if loc = "" then (st, some Err.locationRequired)
      else if isProtected ∧ pw = "" then (st, some Err.passwordRequired)
      else
        ({ st with
            events := st.events ++
              [⟨st.nextEventId, n, loc, isProtected, pw, [], 0, none, [], true⟩],
            nextEventId := st.nextEventId + 1 }, none)

/-- The `host:setMinIncrement` handler: requires a finite value `>= 0`. -/
def hostSetMinIncrement (sid eventId : ℕ) (value : JsNum) (st : Srv) :
    Srv × Option Err :=
  match lookupConn st sid with
  | none => (st, none)
  | some s =>
    if s.role ≠ Role.host then (st, some Err.hostOnly)
    else match getEvent st eventId with
    | none => (st, some Err.eventNotFound)
    | some _ =>
      match value with
      | JsNum.fin v =>
        if v < 0 then (st, some Err.valueNonneg)
        else (updEvent st eventId (fun e => { e with minIncrement := v }), none)
      | _ => (st, some Err.valueNonneg)

/-- The `host:createItem` handler. -/
def hostCreateItem (sid eventId : ℕ) (title description : Option String)
    (openingBid : JsNum) (imageUrl : Option String) (st : Srv) : Srv × Option Err :=
  match lookupConn st sid with
  | none => (st, none)
  | some s =>
    if s.role ≠ Role.host then (st, some Err.hostOnly)
    else match getEvent st eventId with
    | none => (st, some Err.eventNotFound)
    | some _ =>
      let t := jsTrim (title.getD "")
      let d := jsTrim (description.getD "")
      if t = "" then (st, some Err.titleRequired)
      else match openingBid with
      | JsNum.fin v =>
        if v < 0 then (st, some Err.openingBidInvalid)
        else
          let item : Item :=
            ⟨st.nextItemId, t, d, v, v, none, [], ItemStatus.open', none,
              jsOrNullS imageUrl, PayStatus.pnone, none, none⟩
          ({ (updEvent st eventId (fun e => { e with items := e.items ++ [item] })) with
              nextItemId := st.nextItemId + 1 }, none)
      | _ => (st, some Err.openingBidInvalid)

/-- The `host:startTimer` handler: item must be open; a falsy duration
defaults to 60; the (defaulted) duration must be a finite positive number;
sets `endTime = now + duration * 1000`. -/
def hostStartTimer (sid eventId itemId : ℕ) (durationSeconds : JsNum) (now : ℚ)
    (st : Srv) : Srv × Option Err :=
  match lookupConn st sid with
  | none => (st, none)
  | some s =>
    if s.role ≠ Role.host then (st, some Err.hostOnly)
    else match getItem (getEvent st eventId) itemId with
    | none => (st, some Err.notFound)
    | some item =>
      if item.status ≠ ItemStatus.open' then (st, some Err.itemNotOpen)
      else match durationSeconds.jsOr 60 with
      | JsNum.fin d =>
        if d ≤ 0 then (st, some Err.badDuration)
        else
          (updItem st eventId itemId (fun it =>
            { it with endTime := some (jsAdd now (jsMul d 1000)) }), none)
      | _ => (st, some Err.badDuration)

/-- The `host:stopTimer` handler: clears the deadline unconditionally. -/
def hostStopTimer (sid eventId itemId : ℕ) (st : Srv) : Srv × Option Err :=
  match lookupConn st sid with
  | none => (st, none)
  | some s =>
    if s.role ≠ Role.host then (st, some Err.hostOnly)
    else match getItem (getEvent st eventId) itemId with
    | none => (st, some Err.notFound)
    | some _ =>
      (updItem st eventId itemId (fun it => { it with endTime := none }), none)

/-- The `host:markSold` handler: sets status to sold, clears the deadline,
and (when a winner exists) opens the two-minute payment window.  The source
performs no check of the current status. -/
def hostMarkSold (sid eventId itemId : ℕ) (now : ℚ) (st : Srv) : Srv × Option Err :=
  match lookupConn st sid with
  | none => (st, none)
  | some s =>
    if s.role ≠ Role.host then (st, some Err.hostOnly)
    else match getItem (getEvent st eventId) itemId with
    | none => (st, some Err.notFound)
    | some _ =>
      (updItem st eventId itemId (fun it =>
        let it1 := { it with status := ItemStatus.sold, endTime := none }
        if truthyS it.currentWinner then
          { it1 with
              paymentStatus := PayStatus.pending,
              paymentWinnerName := it.currentWinner,
              paymentDueAt := some (jsAdd now 120000) }
        else it1), none)

/-- The `host:reopen` handler: back to open, clears a stale deadline, resets
the payment window unconditionally. -/
def hostReopen (sid eventId itemId : ℕ) (now : ℚ) (st : Srv) : Srv × Option Err :=
  match lookupConn st sid with
  | none => (st, none)
  | some s =>
    if s.role ≠ Role.host then (st, some Err.hostOnly)
    else match getItem (getEvent st eventId) itemId with
    | none => (st, some Err.notFound)
    | some _ =>
      (updItem st eventId itemId (fun it =>
        { it with
            status := ItemStatus.open',
            endTime :=
              match it.endTime with
              | some t => if t ≠ 0 ∧ t ≤ now then none else some t
              | none => none,
            paymentStatus := PayStatus.pnone,
            paymentDueAt := none,
            paymentWinnerName := none }), none)

/-- The `host:setCurrentLot` handler. -/
def hostSetCurrentLot (sid eventId : ℕ) (itemId : Option ℕ) (st : Srv) :
    Srv × Option Err :=
  match lookupConn st sid with
  | none => (st, none)
  | some s =>
    if s.role ≠ Role.host then (st, some Err.hostOnly)
    else match getEvent st eventId with
    | none => (st, some Err.eventNotFound)
    | some ev =>
      match jsOrNullN itemId with
      | some i =>
        if getItem (some ev) i = none then (st, some Err.itemNotFound)
        else (updEvent st eventId (fun e => { e with currentLotId := some i }), none)
      | none =>
        (updEvent st eventId (fun e => { e with currentLotId := none }), none)

/-- The `placeBid` handler (the bid arbiter). -/
def placeBid (sid eventId itemId : ℕ) (amount : JsNum) (name : Option String)
    (now : ℚ) (st : Srv) : Srv × Option Err :=
  match lookupConn st sid with
  | none => (st, none)
  | some s =>
    if s.role ≠ Role.bidder then (st, some Err.onlyBidders)
    else match getEvent st eventId with
    | none => (st, some Err.notFound)
    | some ev => match getItem (some ev) itemId with
    | none => (st, some Err.notFound)
    | some item =>
      if s.eventId ≠ some ev.id then (st, some Err.joinFirst)
      else
        let eff :=
          match s.displayName with
          | some d => if d ≠ "" then d else ((name.getD "Anonymous").take 40)
          | none => (name.getD "Anonymous").take 40
        if ¬ s.nameLocked ∨ s.displayName ≠ some eff then (st, some Err.nameLockedErr)
        else if item.status ≠ ItemStatus.open' then
          (st, some (Err.biddingClosed item.status))
        else if deadlinePassed item.endTime now then
          (updItem st eventId itemId (fun it =>
            { it with status := ItemStatus.closed, endTime := none }), some Err.timeUp)
        else match amount with
        | JsNum.fin a =>
          if a ≤ 0 then (st, some Err.amountPositive)
          else
            let minAcceptable := qMax item.openingBid item.currentBid
            let required :=
              if ev.minIncrement = 0 then jsAdd minAcceptable jsEpsilon
              else jsAdd minAcceptable ev.minIncrement
            if a < required then
              (st, some (if 0 < ev.minIncrement then
                  Err.bidTooLowInc ev.minIncrement required
                else Err.bidTooLow minAcceptable))
            else
              (updItem st eventId itemId (fun it =>
                let it1 :=
                  { it with
                      currentBid := a,
                      currentWinner := some eff,
                      bidHistory := it.bidHistory ++ [⟨eff, a, now⟩] }
                if it1.paymentStatus ≠ PayStatus.pnone then
                  { it1 with
                      paymentStatus := PayStatus.pnone,
                      paymentDueAt := none,
                      paymentWinnerName := none }
                else it1), none)
        | _ => (st, some Err.amountPositive)

/-- The `payment:confirm` handler.  Note: the source performs no role
check; the caller is identified purely by the bound display name. -/
def paymentConfirm (sid eventId itemId : ℕ) (now : ℚ) (st : Srv) : Srv × Option Err :=
  match lookupConn st sid with
  | none => (st, none)
  | some s =>
    match getItem (getEvent st eventId) itemId with
    | none => (st, some Err.notFound)
    | some item =>
      if item.status ≠ ItemStatus.sold then (st, some Err.itemNotSold)
      else if item.paymentStatus ≠ PayStatus.pending then (st, some Err.noPendingPayment)
      else if s.paymentProfile = none then (st, some Err.setupProfileFirst)
      else if s.displayName ≠ item.paymentWinnerName then (st, some Err.onlyWinner)
      else if dueAtPassed item.paymentDueAt now then
        (updItem st eventId itemId (fun it =>
          { it with paymentStatus := PayStatus.expired }), some Err.paymentExpired)
      else
        (updItem st eventId itemId (fun it =>
          { it with paymentStatus := PayStatus.confirmed, paymentDueAt := none }), none)

/-- One sweep step on a single item: lazily close an expired bidding window,
then lazily expire an overdue pending payment window. -/
def sweepItem (now : ℚ) (it : Item) : Item :=
  let it1 :=
    if it.status = ItemStatus.open' ∧ deadlinePassed it.endTime now then
      { it with status := ItemStatus.closed, endTime := none }
    else it
  if it1.status = ItemStatus.sold ∧ it1.paymentStatus = PayStatus.pending
      ∧ dueAtPassed it1.paymentDueAt now then
    { it1 with paymentStatus := PayStatus.expired }
  else it1

/-- One tick of the periodic expiry sweep (`setInterval`, every second). -/
def sweep (now : ℚ) (st : Srv) : Srv × Option Err :=
  ({ st with events := st.events.map (fun ev =>
      { ev with items := ev.items.map (sweepItem now) }) }, none)

/-! ## Commands and runs -/

/-- A command: one socket event (or connection event, or sweep tick),
together with the wall-clock time at which it runs. -/
inductive Cmd where
  | connect (sid : ℕ)
  | auth (sid : ℕ) (role password : String)
  | profileSetup (sid : ℕ) (name email cardLast4 deliveryAddress : Option String)
  | eventJoin (sid eventId : ℕ) (name password : Option String)
  | disconnect (sid : ℕ)
  | hostCreateEvent (sid : ℕ) (name location : Option String) (isProtected : Bool)
      (password : Option String)
  | hostSetMinIncrement (sid eventId : ℕ) (value : JsNum)
  | hostCreateItem (sid eventId : ℕ) (title description : Option String)
      (openingBid : JsNum) (imageUrl : Option String)
  | hostStartTimer (sid eventId itemId : ℕ) (durationSeconds : JsNum) (now : ℚ)
  | hostStopTimer (sid eventId itemId : ℕ)
  | hostMarkSold (sid eventId itemId : ℕ) (now : ℚ)
  | hostReopen (sid eventId itemId : ℕ) (now : ℚ)
  | hostSetCurrentLot (sid eventId : ℕ) (itemId : Option ℕ)
  | placeBid (sid eventId itemId : ℕ) (amount : JsNum) (name : Option String) (now : ℚ)
  | paymentConfirm (sid eventId itemId : ℕ) (now : ℚ)
  | sweep (now : ℚ)

/-- Dispatch one command. -/
def exec : Cmd → Srv → Srv × Option Err
  | Cmd.connect sid, st => connect sid st
  | Cmd.auth sid role pw, st => auth sid role pw st
  | Cmd.profileSetup sid n em c d, st => profileSetup sid n em c d st
  | Cmd.eventJoin sid eid n pw, st => eventJoin sid eid n pw st
  | Cmd.disconnect sid, st => disconnect sid st
  | Cmd.hostCreateEvent sid n loc p pw, st => hostCreateEvent sid n loc p pw st
  | Cmd.hostSetMinIncrement sid eid v, st => hostSetMinIncrement sid eid v st
  | Cmd.hostCreateItem sid eid t d ob iu, st => hostCreateItem sid eid t d ob iu st
  | Cmd.hostStartTimer sid eid iid d now, st => hostStartTimer sid eid iid d now st
  | Cmd.hostStopTimer sid eid iid, st => hostStopTimer sid eid iid st
  | Cmd.hostMarkSold sid eid iid now, st => hostMarkSold sid eid iid now st
  | Cmd.hostReopen sid eid iid now, st => hostReopen sid eid iid now st
  | Cmd.hostSetCurrentLot sid eid iid, st => hostSetCurrentLot sid eid iid st
  | Cmd.placeBid sid eid iid a n now, st => placeBid sid eid iid a n now st
  | Cmd.paymentConfirm sid eid iid now, st => paymentConfirm sid eid iid now st
  | Cmd.sweep now, st => sweep now st

/-- The state a command leaves behind (errors are reported to the caller
only; the state, including any pre-throw mutation, persists). -/
def execS (c : Cmd) (st : Srv) : Srv := (exec c st).1

/-- Run a list of commands from the initial state. -/
def run (cs : List Cmd) : Srv := cs.foldl (fun st c => execS c st) initialSrv

/-! ## Concrete runs

Reachable states used by the claims: a host creates an event (id 1) holding
one item (id 1, opening bid 100), and bidders join.  All states below are
reachable from process start by the listed command sequences. -/

/-- Host connects, authenticates, creates event 1 with item 1
(opening bid 100, minimum increment 0). -/
def trBase : List Cmd :=
  [Cmd.connect 1, Cmd.auth 1 "host" "1234",
   Cmd.hostCreateEvent 1 (some "Estate Sale") (some "Hall A") false none,
   Cmd.hostCreateItem 1 1 (some "Lot 1") (some "") (JsNum.fin 100) none]

/-- ... then bidder `alice` (socket 2) sets up a profile and joins event 1. -/
def trJoined : List Cmd :=
  trBase ++
  [Cmd.connect 2, Cmd.auth 2 "bidder" "",
   Cmd.profileSetup 2 (some "alice") (some "alice@example.com") none none,
   Cmd.eventJoin 2 1 (some "alice") none]

/-- ... then alice places a first (accepted) bid of exactly 100. -/
def trOneBid : List Cmd :=
  trJoined ++ [Cmd.placeBid 2 1 1 (JsNum.fin 100) none 5000]

/-- ... with the host instead setting a minimum increment of 50 first. -/
def trInc50 : List Cmd :=
  trJoined ++ [Cmd.hostSetMinIncrement 1 1 (JsNum.fin 50)]

/-- ... with the host instead setting the tiny minimum increment
`2 ^ (-60)` (an exactly representable binary64 value). -/
def trTinyInc : List Cmd :=
  trJoined ++ [Cmd.hostSetMinIncrement 1 1 (JsNum.fin (Rat.divInt 1 1152921504606846976))]

/-- ... with the host instead starting a 60-second timer at time 1000,
so the item's deadline is 61000. -/
def trTimed : List Cmd :=
  trJoined ++ [Cmd.hostStartTimer 1 1 1 (JsNum.fin 60) 1000]

/-- Host creates event and item, starts a 60-second timer at time 1000, and
the sweep closes the item at its deadline. -/
def trClosed : List Cmd :=
  trBase ++ [Cmd.hostStartTimer 1 1 1 (JsNum.fin 60) 1000, Cmd.sweep 61000]

/-- Bidders alice and bob join, alice bids 150, the host marks the item sold
at time 100000: payment window pending for `alice` until 220000. -/
def trSold : List Cmd :=
  trJoined ++
  [Cmd.connect 3, Cmd.auth 3 "bidder" "",
   Cmd.profileSetup 3 (some "bob") (some "bob@example.com") none none,
   Cmd.eventJoin 3 1 (some "bob") none,
   Cmd.placeBid 2 1 1 (JsNum.fin 150) none 5000,
   Cmd.hostMarkSold 1 1 1 100000]

/-- ... then socket 4 connects (role guest, never authenticated) and fills a
payment profile under the winner's name `alice` without joining anything. -/
def trGuestConfirm : List Cmd :=
  trSold ++
  [Cmd.connect 4, Cmd.profileSetup 4 (some "alice") (some "alice2@example.com") none none]

/-- Bidder on socket 2 joins event 1 as `x`, then `profile:setup` rebinds the
locked display name to `y`; socket 3 prepares a profile under `y` as well. -/
def trRename : List Cmd :=
  [Cmd.connect 1, Cmd.auth 1 "host" "1234",
   Cmd.hostCreateEvent 1 (some "E") (some "L") false none,
   Cmd.connect 2, Cmd.auth 2 "bidder" "",
   Cmd.profileSetup 2 (some "x") (some "x@example.com") none none,
   Cmd.eventJoin 2 1 (some "x") none,
   Cmd.profileSetup 2 (some "y") (some "y@example.com") none none,
   Cmd.connect 3, Cmd.auth 3 "bidder" "",
   Cmd.profileSetup 3 (some "y") (some "y@example.com") none none]

/-- The closed item reached by `trClosed`. -/
def closedItem : Item :=
  ⟨1, "Lot 1", "", 100, 100, none, [], ItemStatus.closed, none, none,
    PayStatus.pnone, none, none⟩

/-- The open item reached by `trBase`. -/
def openItem : Item :=
  ⟨1, "Lot 1", "", 100, 100, none, [], ItemStatus.open', none, none,
    PayStatus.pnone, none, none⟩

/-- The session of the winning bidder `alice` after `trSold`. -/
def aliceSession : Session :=
  ⟨Role.bidder, some 1, true, some "alice", some ⟨"alice", "alice@example.com", "", ""⟩⟩

/-- The sold item reached by `trSold`: sold to `alice` for 150, payment
pending until 220000. -/
def soldItem : Item :=
  ⟨1, "Lot 1", "", 100, 150, some "alice", [⟨"alice", 150, 5000⟩], ItemStatus.sold,
    none, none, PayStatus.pending, some 220000, some "alice"⟩

/-- The timed item reached by `trTimed`: open with deadline 61000. -/
def timedItem : Item :=
  ⟨1, "Lot 1", "", 100, 100, none, [], ItemStatus.open', some 61000, none,
    PayStatus.pnone, none, none⟩

/-! ## Numeric bridging lemmas and sanity checks -/

theorem qAdd_eq_add (a b : ℚ) : qAdd a b = a + b := by
  conv_rhs => rw [← Rat.num_divInt_den a, ← Rat.num_divInt_den b]
  rw [Rat.divInt_add_divInt _ _ (Int.natCast_ne_zero.mpr a.den_nz)
    (Int.natCast_ne_zero.mpr b.den_nz), qAdd]

theorem qMul_eq_mul (a b : ℚ) : qMul a b = a * b := by
  conv_rhs => rw [← Rat.num_divInt_den a, ← Rat.num_divInt_den b]
  rw [Rat.divInt_mul_divInt', qMul]

theorem qNeg_eq_neg (a : ℚ) : qNeg a = -a := by
  rw [Rat.neg_def, qNeg]

theorem qMax_eq_max (a b : ℚ) : qMax a b = max a b := by
  rw [qMax, max_def]

theorem qOfNat_eq_cast (n : ℕ) : qOfNat n = (n : ℚ) := by
  rw [qOfNat, Int.ofNat_eq_natCast, Rat.divInt_one]
  norm_cast

example : floatRound 150 = 150 := by decide
example : jsAdd 100 jsEpsilon = 100 := by decide
example : jsAdd 1 jsEpsilon = Rat.divInt 4503599627370497 4503599627370496 := by decide
example : jsAdd 100 50 = 150 := by decide
example : qMax 100 100 = 100 := by decide
example : jsMul 60 1000 = 60000 := by decide



/-! ## Re-lookup lemmas

Mutating the object returned by `find` and reading it back through `find`
again observes exactly the mutation, provided the mutation does not change
the key.  All update functions of the handlers preserve ids. -/

theorem find?_modifyFirst {α : Type} (p : α → Bool) (g : α → α) (l : List α)
    (hg : ∀ x, p (g x) = p x) :
    (modifyFirst p g l).find? p = (l.find? p).map g := by
  induction l with
  | nil => rfl
  | cons x rest ih =>
    cases hx : p x with
    | true =>
      rw [modifyFirst, if_pos hx, List.find?_cons_of_pos _ ((hg x).trans hx),
        List.find?_cons_of_pos _ hx, Option.map_some']
    | false =>
      rw [modifyFirst, if_neg (by simp [hx]), List.find?_cons_of_neg _ (by simp [hx]),
        List.find?_cons_of_neg _ (by simp [hx]), ih]

theorem find?_map_eq {α : Type} (p : α → Bool) (g : α → α) (l : List α)
    (hg : ∀ x, p (g x) = p x) :
    (l.map g).find? p = (l.find? p).map g := by
  induction l with
  | nil => rfl
  | cons x rest ih =>
    cases hx : p x with
    | true =>
      rw [List.map_cons, List.find?_cons_of_pos _ ((hg x).trans hx),
        List.find?_cons_of_pos _ hx, Option.map_some']
    | false =>
      rw [List.map_cons, List.find?_cons_of_neg _ (by simp [hg x, hx]),
        List.find?_cons_of_neg _ (by simp [hx]), ih]

theorem getEvent_updEvent (st : Srv) (eid : ℕ) (f : Event → Event)
    (hf : ∀ e, (f e).id = e.id) :
    getEvent (updEvent st eid f) eid = (getEvent st eid).map f := by
  rw [getEvent, updEvent, getEvent]
  exact find?_modifyFirst _ f st.events (fun e => by simp [hf e])

theorem getItem_updItem (st : Srv) (eid iid : ℕ) (f : Item → Item)
    (hf : ∀ it, (f it).id = it.id) :
    getItem (getEvent (updItem st eid iid f) eid) iid
      = (getItem (getEvent st eid) iid).map f := by
  rw [updItem, getEvent_updEvent st eid
    (fun ev => { ev with items := modifyItems ev.items iid f }) (fun e => rfl)]
  cases hev : getEvent st eid with
  | none => rfl
  | some ev =>
    rw [Option.map_some', getItem, getItem, modifyItems]
    exact find?_modifyFirst _ f ev.items (fun it => by simp [hf it])

theorem lookupConn_updConn (st : Srv) (sid : ℕ) (f : Session → Session) :
    lookupConn (updConn st sid f) sid = (lookupConn st sid).map f := by
  simp only [lookupConn, updConn, modifyConns]
  rw [find?_modifyFirst (fun c => c.1 == sid) (fun c => (c.1, f c.2)) st.conns
    (fun c => rfl), Option.map_map, Option.map_map]
  rfl

theorem getEvent_updConn (st : Srv) (sid : ℕ) (f : Session → Session) (eid : ℕ) :
    getEvent (updConn st sid f) eid = getEvent st eid := rfl

theorem events_updItem_updConn (st : Srv) (sid : ℕ) (f : Session → Session)
    (eid iid : ℕ) (g : Item → Item) :
    (updItem (updConn st sid f) eid iid g).events = (updItem st eid iid g).events := rfl

theorem sweepItem_id (now : ℚ) (it : Item) : (sweepItem now it).id = it.id := by
  simp only [sweepItem]
  repeat' split
  all_goals rfl

theorem getItem_sweepState (st : Srv) (now : ℚ) (eid iid : ℕ) :
    getItem (getEvent (exec (Cmd.sweep now) st).1 eid) iid
      = (getItem (getEvent st eid) iid).map (sweepItem now) := by
  have h1 : getEvent (exec (Cmd.sweep now) st).1 eid
      = (getEvent st eid).map
          (fun ev => { ev with items := ev.items.map (sweepItem now) }) := by
    show getEvent ({ st with events := st.events.map (fun ev =>
        { ev with items := ev.items.map (sweepItem now) }) }) eid = _
    rw [getEvent, getEvent]
    exact find?_map_eq _ _ st.events (fun e => rfl)
  rw [h1]
  cases hev : getEvent st eid with
  | none => rfl
  | some ev =>
    rw [Option.map_some', getItem, getItem]
    exact find?_map_eq _ _ ev.items (fun it => by simp [sweepItem_id])

/-! ## Claim C1 -/

/-- C1: with minimum increment 0 and opening bid 100, the code computes the
required amount as the binary64 sum `100 + Number.EPSILON`, which rounds back
to `100`; a first bid of exactly 100 is therefore ACCEPTED (return `ok`,
`currentWinner` set to the caller), not rejected as `BidTooLow`.  The spec's
strictly-greater rule is the stated intent of the code (its own rejection
message reads `Bid must be greater than current bid`), so this is a slip in
the code: `Number.EPSILON` is smaller than half an ulp of any value `>= 2`. -/
theorem epsilon_margin_accepts_equal_bid :
    jsAdd 100 jsEpsilon = 100
    ∧ (getEvent (run trJoined) 1).map Event.minIncrement = some 0
    ∧ (getItem (getEvent (run trJoined) 1) 1).map
        (fun it => (it.openingBid, it.currentBid, it.bidHistory, it.currentWinner))
      = some (100, 100, [], none)
    ∧ (exec (Cmd.placeBid 2 1 1 (JsNum.fin 100) none 5000) (run trJoined)).2 = none
    ∧ (getItem (getEvent (exec (Cmd.placeBid 2 1 1 (JsNum.fin 100) none 5000)
        (run trJoined)).1 1) 1).map Item.currentWinner = some (some "alice") := by
  decide

/-! ## Claim C7 -/

/-- C7: the bid ledger is not strictly increasing in amount: with minimum
increment 0, the rounded threshold equals the current bid (for values `>= 2`),
so the same amount can be accepted twice in a row; after two accepted bids of
100 the ledger amounts are `[100, 100]` and `currentBid` is unchanged. -/
theorem ledger_can_repeat_amounts :
    (exec (Cmd.placeBid 2 1 1 (JsNum.fin 100) none 5000) (run trJoined)).2 = none
    ∧ (exec (Cmd.placeBid 2 1 1 (JsNum.fin 100) none 6000) (run trOneBid)).2 = none
    ∧ (getItem (getEvent (exec (Cmd.placeBid 2 1 1 (JsNum.fin 100) none 6000)
        (run trOneBid)).1 1) 1).map
        (fun it => (it.bidHistory.map BidEntry.amount, it.currentBid))
      = some ([100, 100], 100) := by
  decide

/-! ## Claim C9 -/

/-- C9: `profile:setup` rebinds `socket.data.displayName` without consulting
the name lock or updating the participant set, so a second connection can
join the same event under a name already bound to a live connection: after
the run, sockets 2 and 3 are both bound (joined to event 1, name locked) with
display name `y`, and socket 3's join succeeded.  This contradicts the
at-most-one-binding invariant and the `NameConflict` guarantee, whose intent
is stated by the source comments (`Lock name while in event; must be
unique`). -/
theorem profile_setup_bypasses_name_lock :
    (lookupConn (run trRename) 2).map
        (fun s => (s.eventId, s.displayName, s.nameLocked))
      = some (some 1, some "y", true)
    ∧ (exec (Cmd.eventJoin 3 1 (some "y") none) (run trRename)).2 = none
    ∧ (lookupConn (exec (Cmd.eventJoin 3 1 (some "y") none) (run trRename)).1 2).map
        (fun s => (s.eventId, s.displayName, s.nameLocked))
      = some (some 1, some "y", true)
    ∧ (lookupConn (exec (Cmd.eventJoin 3 1 (some "y") none) (run trRename)).1 3).map
        (fun s => (s.eventId, s.displayName, s.nameLocked))
      = some (some 1, some "y", true) := by
  decide

/-! ## Claim C3: counterexample -/

/-- C3 counterexample: `markSold` checks only the host role and existence;
on a reachable closed item (deadline expired, closed by the sweep) it
succeeds and moves the item directly from closed to sold, contradicting
`no closed → sold direct transition` and the claimed `StateConflictError`. -/
theorem markSold_closed_item_succeeds :
    (getItem (getEvent (run trClosed) 1) 1).map Item.status = some ItemStatus.closed
    ∧ (exec (Cmd.hostMarkSold 1 1 1 70000) (run trClosed)).2 = none
    ∧ (getItem (getEvent (exec (Cmd.hostMarkSold 1 1 1 70000) (run trClosed)).1 1) 1).map
        Item.status = some ItemStatus.sold := by
  decide

/-! ## Claim C8: counterexample -/

/-- C8 counterexample: a requested duration of 0 is not a finite positive
number, but `Number(durationSeconds || 60)` replaces the falsy 0 by the
default 60, so `startTimer` succeeds and sets the deadline to
`now + 60 * 1000`. -/
theorem startTimer_zero_duration_succeeds :
    (getItem (getEvent (run trBase) 1) 1).map Item.status = some ItemStatus.open'
    ∧ (exec (Cmd.hostStartTimer 1 1 1 (JsNum.fin 0) 1000) (run trBase)).2 = none
    ∧ (getItem (getEvent (exec (Cmd.hostStartTimer 1 1 1 (JsNum.fin 0) 1000)
        (run trBase)).1 1) 1).map Item.endTime = some (some 61000) := by
  decide

/-! ## Claim C4: counterexample -/

/-- C4 counterexample: the lazy `pending → expired` transition happens only
when every earlier check passed; a confirmation attempt by a caller other
than the recorded winner, made after the deadline, fails with the
wrong-caller error and leaves the sub-state `pending`, not `expired`. -/
theorem failed_confirm_by_other_caller_keeps_pending :
    (getItem (getEvent (run trSold) 1) 1).map
        (fun it => (it.status, it.paymentStatus, it.paymentWinnerName, it.paymentDueAt))
      = some (ItemStatus.sold, PayStatus.pending, some "alice", some 220000)
    ∧ (lookupConn (run trSold) 3).map Session.displayName = some (some "bob")
    ∧ (exec (Cmd.paymentConfirm 3 1 1 300001) (run trSold)).2 = some Err.onlyWinner
    ∧ (getItem (getEvent (exec (Cmd.paymentConfirm 3 1 1 300001) (run trSold)).1 1) 1).map
        Item.paymentStatus = some PayStatus.pending := by
  decide

/-! ## Claim C5: counterexample -/

/-- C5 counterexample: `payment:confirm` has no role check.  A guest
connection (socket 4, never authenticated) that set up a payment profile
under the winner's display name confirms the payment successfully instead of
failing with an authorization error. -/
theorem guest_can_confirm_payment :
    (lookupConn (run trGuestConfirm) 4).map Session.role = some Role.guest
    ∧ (exec (Cmd.paymentConfirm 4 1 1 150000) (run trGuestConfirm)).2 = none
    ∧ (getItem (getEvent (exec (Cmd.paymentConfirm 4 1 1 150000)
        (run trGuestConfirm)).1 1) 1).map Item.paymentStatus
      = some PayStatus.confirmed := by
  decide

/-! ## Claim C2: counterexample -/

/-- C2 counterexample: with the strictly positive minimum increment
`2 ^ (-60)` the code's threshold is the binary64 sum
`fl(100 + 2 ^ (-60)) = 100`, so a bid of exactly 100 is accepted even though
it is smaller than the exact sum `max(openingBid, currentBid) + minIncrement`;
the claimed acceptance condition `amount ≥ minAcceptable + minIncrement`
(exact arithmetic) does not hold of the code. -/
theorem tiny_increment_threshold_rounds_down :
    (getEvent (run trTinyInc) 1).map Event.minIncrement
      = some (Rat.divInt 1 1152921504606846976)
    ∧ (0 : ℚ) < Rat.divInt 1 1152921504606846976
    ∧ (getItem (getEvent (run trTinyInc) 1) 1).map
        (fun it => qMax it.openingBid it.currentBid) = some 100
    ∧ (exec (Cmd.placeBid 2 1 1 (JsNum.fin 100) none 5000) (run trTinyInc)).2 = none
    ∧ ¬ (qAdd 100 (Rat.divInt 1 1152921504606846976) ≤ 100) := by
  decide

/-! ## Claim C3: amended -/

/-- C3 amended: `markSold` performs no status check.  For a host caller and
any found item — whatever its status, including closed — it succeeds, sets
the status to sold, clears the deadline, and arms the two-minute payment
window exactly when the item has a (truthy) `currentWinner`. -/
theorem markSold_rule (st : Srv) (sid eid iid : ℕ) (s : Session) (ev : Event)
    (item : Item) (now : ℚ)
    (hs : lookupConn st sid = some s) (hrole : s.role = Role.host)
    (hev : getEvent st eid = some ev) (hit : getItem (some ev) iid = some item) :
    (exec (Cmd.hostMarkSold sid eid iid now) st).2 = none
    ∧ getItem (getEvent (exec (Cmd.hostMarkSold sid eid iid now) st).1 eid) iid
      = some (if truthyS item.currentWinner then
          { item with
              status := ItemStatus.sold
              endTime := none
              paymentStatus := PayStatus.pending
              paymentWinnerName := item.currentWinner
              paymentDueAt := some (jsAdd now 120000) }
        else { item with status := ItemStatus.sold, endTime := none }) := by
  have hgi : getItem (getEvent st eid) iid = some item := by rw [hev]; exact hit
  have hne : ¬ (Role.host ≠ Role.host) := fun h => h rfl
  simp only [exec, hostMarkSold, hs, hgi, hrole]
  rw [if_neg hne]
  constructor
  · rfl
  · dsimp only
    rw [getItem_updItem st eid iid]
    · rw [hgi, Option.map_some']
    · intro it
      dsimp only
      split <;> rfl

/-- Witness for `markSold_rule`, at the reachable closed item of `trClosed`:
the host sale succeeds and yields the sold item. -/
theorem markSold_rule_witness :
    (exec (Cmd.hostMarkSold 1 1 1 70000) (run trClosed)).2 = none
    ∧ getItem (getEvent (exec (Cmd.hostMarkSold 1 1 1 70000) (run trClosed)).1 1) 1
      = some { closedItem with status := ItemStatus.sold, endTime := none } := by
  have h := markSold_rule (run trClosed) 1 1 1 ⟨Role.host, none, false, none, none⟩
    ⟨1, "Estate Sale", "Hall A", false, "", [closedItem], 0, none, [], true⟩
    closedItem 70000 (by decide) rfl (by decide) (by decide)
  refine ⟨h.1, ?_⟩
  rw [h.2]
  decide

/-! ## Claim C10 -/

/-- C10: `event:join` demands a completed payment profile before anything
else: for a connection without one, every join request fails with the
profile error and the state is unchanged, regardless of event id, name or
password.  A blank requested name falls back to the session's bound display
name (the name set by `profile:setup`) before validation. -/
theorem join_requires_payment_profile :
    (∀ (st : Srv) (sid eid : ℕ) (s : Session) (nm pw : Option String),
      lookupConn st sid = some s → s.paymentProfile = none →
        exec (Cmd.eventJoin sid eid nm pw) st = (st, some Err.completeProfileFirst))
    ∧ (∀ (nm : Option String) (s : Session),
        jsTrim (nm.getD "") = "" → joinEffName nm s = s.displayName) := by
  constructor
  · intro st sid eid s nm pw hs hp
    simp only [exec, eventJoin, hs, hp]
    rw [if_pos trivial]
  · intro nm s h
    simp only [joinEffName, h]
    rw [if_pos trivial]

/-- Witness for `join_requires_payment_profile`: a freshly connected socket
(no profile) cannot join, and a blank name falls back to the bound display
name. -/
theorem join_requires_payment_profile_witness :
    exec (Cmd.eventJoin 1 1 (some "alice") none) (run [Cmd.connect 1])
      = (run [Cmd.connect 1], some Err.completeProfileFirst)
    ∧ joinEffName (some "  ") ⟨Role.bidder, none, false, some "alice", none⟩
      = some "alice" := by
  constructor
  · exact join_requires_payment_profile.1 (run [Cmd.connect 1]) 1 1
      ⟨Role.guest, none, false, none, none⟩ (some "alice") none (by decide) rfl
  · rw [join_requires_payment_profile.2 (some "  ") _ (by decide)]

/-! ## Claim C8: amended -/

/-- C8 amended: `startTimer` fails (unchanged state) unless the item is
open.  The duration input is first defaulted by `durationSeconds || 60`:
a falsy duration (0, `NaN`, omitted) becomes 60, and then the (defaulted)
duration must be a finite positive number, else the call fails with the
bad-duration error.  On success the deadline becomes `now + duration * 1000`
(binary64 arithmetic) and nothing else about the item changes. -/
theorem startTimer_rule (st : Srv) (sid eid iid : ℕ) (s : Session) (ev : Event)
    (item : Item) (dsec : JsNum) (now : ℚ)
    (hs : lookupConn st sid = some s) (hrole : s.role = Role.host)
    (hev : getEvent st eid = some ev) (hit : getItem (some ev) iid = some item) :
    (item.status ≠ ItemStatus.open' →
      exec (Cmd.hostStartTimer sid eid iid dsec now) st = (st, some Err.itemNotOpen))
    ∧ (∀ d : ℚ, item.status = ItemStatus.open' → dsec.jsOr 60 = JsNum.fin d → 0 < d →
        (exec (Cmd.hostStartTimer sid eid iid dsec now) st).2 = none
        ∧ getItem (getEvent (exec (Cmd.hostStartTimer sid eid iid dsec now) st).1 eid) iid
          = some { item with endTime := some (jsAdd now (jsMul d 1000)) })
    ∧ (∀ d : ℚ, item.status = ItemStatus.open' → dsec.jsOr 60 = JsNum.fin d → d ≤ 0 →
        exec (Cmd.hostStartTimer sid eid iid dsec now) st = (st, some Err.badDuration))
    ∧ (item.status = ItemStatus.open' → (∀ d : ℚ, dsec.jsOr 60 ≠ JsNum.fin d) →
        exec (Cmd.hostStartTimer sid eid iid dsec now) st = (st, some Err.badDuration)) := by
  have hgi : getItem (getEvent st eid) iid = some item := by rw [hev]; exact hit
  have hne : ¬ (Role.host ≠ Role.host) := fun h => h rfl
  refine ⟨?_, ?_, ?_, ?_⟩
  · intro hst
    simp only [exec, hostStartTimer, hs, hgi, hrole]
    rw [if_neg hne, if_pos hst]
  · intro d hst h60 hdpos
    simp only [exec, hostStartTimer, hs, hgi, hrole, h60]
    rw [if_neg hne, if_neg (by simp [hst]), if_neg (not_le.mpr hdpos)]
    constructor
    · rfl
    · dsimp only
      rw [getItem_updItem st eid iid]
      · rw [hgi, Option.map_some']
      · intro it
        rfl
  · intro d hst h60 hdle
    simp only [exec, hostStartTimer, hs, hgi, hrole, h60]
    rw [if_neg hne, if_neg (by simp [hst]), if_pos hdle]
  · intro hst hnf
    cases h60 : dsec.jsOr 60 with
    | fin d => exact absurd h60 (hnf d)
    | nan t =>
      simp only [exec, hostStartTimer, hs, hgi, hrole, h60]
      rw [if_neg hne, if_neg (by simp [hst])]
    | inf =>
      simp only [exec, hostStartTimer, hs, hgi, hrole, h60]
      rw [if_neg hne, if_neg (by simp [hst])]

/-- Witness for `startTimer_rule`: on the open item of `trBase` a 60-second
timer started at time 1000 succeeds with deadline 61000, and an infinite
duration fails with the bad-duration error. -/
theorem startTimer_rule_witness :
    (exec (Cmd.hostStartTimer 1 1 1 (JsNum.fin 60) 1000) (run trBase)).2 = none
    ∧ getItem (getEvent (exec (Cmd.hostStartTimer 1 1 1 (JsNum.fin 60) 1000)
        (run trBase)).1 1) 1 = some { openItem with endTime := some 61000 }
    ∧ exec (Cmd.hostStartTimer 1 1 1 JsNum.inf 1000) (run trBase)
      = (run trBase, some Err.badDuration) := by
  have h := startTimer_rule (run trBase) 1 1 1 ⟨Role.host, none, false, none, none⟩
    ⟨1, "Estate Sale", "Hall A", false, "", [openItem], 0, none, [], true⟩
    openItem (JsNum.fin 60) 1000 (by decide) rfl (by decide) (by decide)
  have h2 := startTimer_rule (run trBase) 1 1 1 ⟨Role.host, none, false, none, none⟩
    ⟨1, "Estate Sale", "Hall A", false, "", [openItem], 0, none, [], true⟩
    openItem JsNum.inf 1000 (by decide) rfl (by decide) (by decide)
  obtain ⟨hok, hread⟩ := h.2.1 60 rfl (by decide) (by decide)
  refine ⟨hok, ?_, h2.2.2.2 rfl (fun d h => JsNum.noConfusion h)⟩
  rw [hread]
  decide

/-! ## Claim C2: amended -/

/-- C2 amended: with a strictly positive minimum increment the required
amount is the binary64 sum `minAcceptable + minIncrement` (which for
increments below half an ulp of `minAcceptable` rounds back down to
`minAcceptable`, collapsing the rule to `amount >= minAcceptable`); a bid
from a joined, name-locked bidder on an open, un-expired item is accepted
iff `amount >= ` that computed threshold, and a rejection carries the
increment and the computed threshold (the `BidTooLow` error). -/
theorem placeBid_increment_rule (st : Srv) (sid eid iid : ℕ) (s : Session)
    (ev : Event) (item : Item) (d : String) (a now : ℚ) (nm : Option String)
    (hs : lookupConn st sid = some s) (hrole : s.role = Role.bidder)
    (hev : getEvent st eid = some ev) (hit : getItem (some ev) iid = some item)
    (hj : s.eventId = some ev.id) (hl : s.nameLocked = true)
    (hd : s.displayName = some d) (hdn : d ≠ "")
    (hopen : item.status = ItemStatus.open')
    (hddl : deadlinePassed item.endTime now = false)
    (hpos : 0 < a) (hinc : 0 < ev.minIncrement) :
    ((exec (Cmd.placeBid sid eid iid (JsNum.fin a) nm now) st).2 = none
      ↔ jsAdd (qMax item.openingBid item.currentBid) ev.minIncrement ≤ a)
    ∧ (a < jsAdd (qMax item.openingBid item.currentBid) ev.minIncrement →
        exec (Cmd.placeBid sid eid iid (JsNum.fin a) nm now) st
          = (st, some (Err.bidTooLowInc ev.minIncrement
              (jsAdd (qMax item.openingBid item.currentBid) ev.minIncrement)))) := by
  have hne : ¬ (Role.bidder ≠ Role.bidder) := fun h => h rfl
  simp only [exec, placeBid, hs, hrole, hev, hit, hj, hl, hd]
  have e1 : (if ev.minIncrement = 0 then
        jsAdd (qMax item.openingBid item.currentBid) jsEpsilon
      else jsAdd (qMax item.openingBid item.currentBid) ev.minIncrement)
      = jsAdd (qMax item.openingBid item.currentBid) ev.minIncrement := if_neg hinc.ne'
  have e2 : (if 0 < ev.minIncrement then
        Err.bidTooLowInc ev.minIncrement
          (jsAdd (qMax item.openingBid item.currentBid) ev.minIncrement)
      else Err.bidTooLow (qMax item.openingBid item.currentBid))
      = Err.bidTooLowInc ev.minIncrement
          (jsAdd (qMax item.openingBid item.currentBid) ev.minIncrement) := if_pos hinc
  rw [if_neg hne, if_neg (fun h => h rfl), if_pos hdn,
    if_neg (by simp), if_neg (by simp [hopen]), if_neg (by simp [hddl]),
    if_neg (not_le.mpr hpos), e1, e2]
  constructor
  · by_cases hc : a < jsAdd (qMax item.openingBid item.currentBid) ev.minIncrement
    · rw [if_pos hc]
      simp [not_le.mpr hc]
    · rw [if_neg hc]
      simp [not_lt.mp hc]
  · intro hlt
    rw [if_pos hlt]

/-- Witness for `placeBid_increment_rule`: with minimum increment 50 on the
item with opening bid 100 and no prior bid, a bid of 140 is rejected with
the threshold 150, and a bid of 150 is accepted. -/
theorem placeBid_increment_rule_witness :
    exec (Cmd.placeBid 2 1 1 (JsNum.fin 140) none 5000) (run trInc50)
      = (run trInc50, some (Err.bidTooLowInc 50 150))
    ∧ (exec (Cmd.placeBid 2 1 1 (JsNum.fin 150) none 5000) (run trInc50)).2 = none := by
  have hreq : jsAdd (qMax (100 : ℚ) 100) 50 = 150 := by decide
  have h140 := placeBid_increment_rule (run trInc50) 2 1 1
    ⟨Role.bidder, some 1, true, some "alice", some ⟨"alice", "alice@example.com", "", ""⟩⟩
    ⟨1, "Estate Sale", "Hall A", false, "", [openItem], 50, none, ["alice"], true⟩
    openItem "alice" 140 5000 none
    (by decide) rfl (by decide) (by decide) rfl rfl rfl (by decide) rfl (by decide)
    (by decide) (by decide)
  have h150 := placeBid_increment_rule (run trInc50) 2 1 1
    ⟨Role.bidder, some 1, true, some "alice", some ⟨"alice", "alice@example.com", "", ""⟩⟩
    ⟨1, "Estate Sale", "Hall A", false, "", [openItem], 50, none, ["alice"], true⟩
    openItem "alice" 150 5000 none
    (by decide) rfl (by decide) (by decide) rfl rfl rfl (by decide) rfl (by decide)
    (by decide) (by decide)
  dsimp only [openItem] at h140 h150
  rw [hreq] at h140 h150
  exact ⟨h140.2 (by decide), h150.1.mpr (by decide)⟩

/-! ## Claim C5: amended -/

/-- C5 amended: `placeBid` is role-gated — any connection whose
server-assigned role is not bidder fails with the only-bidders error and no
state change.  `payment:confirm` performs no role check at all: its reported
result and its effect on the auction state are identical for every value of
the caller's role (it is gated by the payment profile and the winner's
name instead).  Neither handler reads any role from the payload. -/
theorem gateway_role_checks :
    (∀ (st : Srv) (sid : ℕ) (s : Session) (eid iid : ℕ) (a : JsNum)
        (nm : Option String) (now : ℚ),
      lookupConn st sid = some s → s.role ≠ Role.bidder →
        exec (Cmd.placeBid sid eid iid a nm now) st = (st, some Err.onlyBidders))
    ∧ (∀ (st : Srv) (sid : ℕ) (s : Session) (r : Role) (eid iid : ℕ) (now : ℚ),
      lookupConn st sid = some s →
        (exec (Cmd.paymentConfirm sid eid iid now)
            (updConn st sid (fun c => { c with role := r }))).2
          = (exec (Cmd.paymentConfirm sid eid iid now) st).2
        ∧ (exec (Cmd.paymentConfirm sid eid iid now)
            (updConn st sid (fun c => { c with role := r }))).1.events
          = (exec (Cmd.paymentConfirm sid eid iid now) st).1.events) := by
  constructor
  · intro st sid s eid iid a nm now hs hrole
    simp only [exec, placeBid, hs]
    rw [if_pos hrole]
  · intro st sid s r eid iid now hs
    have hs2 : lookupConn (updConn st sid (fun c => { c with role := r })) sid
        = some { s with role := r } := by
      rw [lookupConn_updConn, hs, Option.map_some']
    have hg : getEvent (updConn st sid (fun c => { c with role := r })) eid
        = getEvent st eid := rfl
    simp only [exec, paymentConfirm, hs, hs2, hg]
    cases hit : getItem (getEvent st eid) iid with
    | none => exact ⟨rfl, rfl⟩
    | some item =>
      dsimp only
      split_ifs <;> exact ⟨rfl, rfl⟩

/-- Witness for `gateway_role_checks`: the host connection of `trBase`
cannot bid, and re-labelling the winner's connection as guest does not
change the result of her payment confirmation. -/
theorem gateway_role_checks_witness :
    exec (Cmd.placeBid 1 1 1 (JsNum.fin 200) none 5000) (run trBase)
      = (run trBase, some Err.onlyBidders)
    ∧ (exec (Cmd.paymentConfirm 2 1 1 150000)
        (updConn (run trSold) 2 (fun c => { c with role := Role.guest }))).2
      = (exec (Cmd.paymentConfirm 2 1 1 150000) (run trSold)).2 := by
  refine ⟨gateway_role_checks.1 (run trBase) 1 ⟨Role.host, none, false, none, none⟩
    1 1 (JsNum.fin 200) none 5000 (by decide) (by decide), ?_⟩
  exact (gateway_role_checks.2 (run trSold) 2 aliceSession Role.guest 1 1 150000
    (by decide)).1

/-! ## Claim C4: amended -/

/-- C4 amended: `confirmPayment` succeeds iff the item is sold with payment
sub-state pending, the caller has a payment profile, the caller's bound
display name equals the recorded `paymentWinnerName`, and the (truthy)
payment deadline has not passed; on success the sub-state becomes confirmed
and the deadline is cleared.  The lazy `pending → expired` transition
happens exactly when every one of those checks except the deadline passes
and the deadline has passed; every other failure leaves the state entirely
unchanged — in particular a failed attempt by a caller other than the
winner does not expire the window even when the deadline has passed. -/
theorem paymentConfirm_rule (st : Srv) (sid eid iid : ℕ) (s : Session) (ev : Event)
    (item : Item) (now : ℚ)
    (hs : lookupConn st sid = some s)
    (hev : getEvent st eid = some ev) (hit : getItem (some ev) iid = some item) :
    ((exec (Cmd.paymentConfirm sid eid iid now) st).2 = none
      ↔ (item.status = ItemStatus.sold ∧ item.paymentStatus = PayStatus.pending
          ∧ s.paymentProfile ≠ none ∧ s.displayName = item.paymentWinnerName
          ∧ dueAtPassed item.paymentDueAt now = false))
    ∧ ((exec (Cmd.paymentConfirm sid eid iid now) st).2 = some Err.paymentExpired
      ↔ (item.status = ItemStatus.sold ∧ item.paymentStatus = PayStatus.pending
          ∧ s.paymentProfile ≠ none ∧ s.displayName = item.paymentWinnerName
          ∧ dueAtPassed item.paymentDueAt now = true))
    ∧ ((exec (Cmd.paymentConfirm sid eid iid now) st).2 = none →
        getItem (getEvent (exec (Cmd.paymentConfirm sid eid iid now) st).1 eid) iid
          = some { item with paymentStatus := PayStatus.confirmed, paymentDueAt := none })
    ∧ ((exec (Cmd.paymentConfirm sid eid iid now) st).2 = some Err.paymentExpired →
        getItem (getEvent (exec (Cmd.paymentConfirm sid eid iid now) st).1 eid) iid
          = some { item with paymentStatus := PayStatus.expired })
    ∧ (∀ e : Err, (exec (Cmd.paymentConfirm sid eid iid now) st).2 = some e →
        e ≠ Err.paymentExpired → (exec (Cmd.paymentConfirm sid eid iid now) st).1 = st) := by
  have hgi : getItem (getEvent st eid) iid = some item := by rw [hev]; exact hit
  simp only [exec, paymentConfirm, hs, hgi]
  split_ifs with h1 h2 h3 h4 h5
  · exact ⟨by simp [h1], by simp [h1], by simp, by simp, fun _ _ _ => rfl⟩
  · exact ⟨by simp [h2], by simp [h2], by simp, by simp, fun _ _ _ => rfl⟩
  · exact ⟨by simp [h3], by simp [h3], by simp, by simp, fun _ _ _ => rfl⟩
  · exact ⟨by simp [h4], by simp [h4], by simp, by simp, fun _ _ _ => rfl⟩
  · refine ⟨by simp [h5], ?_, by simp, ?_, ?_⟩
    · constructor
      · intro _
        exact ⟨not_ne_iff.mp h1, not_ne_iff.mp h2, h3, not_ne_iff.mp h4, h5⟩
      · intro _
        rfl
    · intro _
      dsimp only
      rw [getItem_updItem st eid iid]
      · rw [hgi, Option.map_some']
      · intro it
        rfl
    · exact fun e he hne => absurd (Option.some.inj he).symm hne
  · rw [Bool.not_eq_true] at h5
    refine ⟨?_, by simp [h5], ?_, by simp, fun e he _ => he.elim⟩
    · constructor
      · intro _
        exact ⟨not_ne_iff.mp h1, not_ne_iff.mp h2, h3, not_ne_iff.mp h4, h5⟩
      · intro _
        rfl
    · intro _
      dsimp only
      rw [getItem_updItem st eid iid]
      · rw [hgi, Option.map_some']
      · intro it
        rfl

/-- Witness for `paymentConfirm_rule`: the winner `alice` confirms within
the window and the sub-state becomes confirmed. -/
theorem paymentConfirm_rule_witness :
    (exec (Cmd.paymentConfirm 2 1 1 150000) (run trSold)).2 = none
    ∧ getItem (getEvent (exec (Cmd.paymentConfirm 2 1 1 150000) (run trSold)).1 1) 1
      = some { soldItem with paymentStatus := PayStatus.confirmed, paymentDueAt := none } := by
  have h := paymentConfirm_rule (run trSold) 2 1 1 aliceSession
    ⟨1, "Estate Sale", "Hall A", false, "", [soldItem], 0, none, ["alice", "bob"], true⟩
    soldItem 150000 (by decide) (by decide) (by decide)
  have hok : (exec (Cmd.paymentConfirm 2 1 1 150000) (run trSold)).2 = none :=
    h.1.mpr (by refine ⟨rfl, rfl, by decide, by decide, by decide⟩)
  exact ⟨hok, h.2.2.1 hok⟩

/-! ## Claim C6 -/

/-- C6: once an item's (truthy) deadline has passed, no bid is ever applied
to it.  First part: for any caller whatsoever, `placeBid` at such a time
reports an error and leaves the item's `currentBid`, `currentWinner` and bid
ledger unchanged.  Second part: for a joined, name-locked bidder on an open
item it fails with the window-closed error and performs the lazy
`open → closed` transition (status closed, deadline cleared, everything else
untouched).  Third part: even with no bid attempt, one sweep tick moves an
open item whose deadline has passed to closed and clears the deadline, so
every subsequent read observes status closed. -/
theorem expired_deadline_rule :
    (∀ (st : Srv) (sid eid iid : ℕ) (s : Session) (ev : Event) (item : Item)
        (t : ℚ) (a : JsNum) (nm : Option String) (now : ℚ),
      lookupConn st sid = some s → getEvent st eid = some ev →
      getItem (some ev) iid = some item →
      item.endTime = some t → t ≠ 0 → t ≤ now →
      (exec (Cmd.placeBid sid eid iid a nm now) st).2 ≠ none
      ∧ ∃ it', getItem (getEvent (exec (Cmd.placeBid sid eid iid a nm now) st).1 eid) iid
            = some it'
          ∧ it'.currentBid = item.currentBid ∧ it'.currentWinner = item.currentWinner
          ∧ it'.bidHistory = item.bidHistory)
    ∧ (∀ (st : Srv) (sid eid iid : ℕ) (s : Session) (ev : Event) (item : Item)
        (t : ℚ) (d : String) (a : JsNum) (nm : Option String) (now : ℚ),
      lookupConn st sid = some s → s.role = Role.bidder →
      getEvent st eid = some ev → getItem (some ev) iid = some item →
      s.eventId = some ev.id → s.nameLocked = true →
      s.displayName = some d → d ≠ "" →
      item.status = ItemStatus.open' →
      item.endTime = some t → t ≠ 0 → t ≤ now →
      exec (Cmd.placeBid sid eid iid a nm now) st
        = (updItem st eid iid
            (fun it => { it with status := ItemStatus.closed, endTime := none }),
           some Err.timeUp)
      ∧ getItem (getEvent (exec (Cmd.placeBid sid eid iid a nm now) st).1 eid) iid
          = some { item with status := ItemStatus.closed, endTime := none })
    ∧ (∀ (st : Srv) (eid iid : ℕ) (ev : Event) (item : Item) (t now : ℚ),
      getEvent st eid = some ev → getItem (some ev) iid = some item →
      item.status = ItemStatus.open' → item.endTime = some t → t ≠ 0 → t ≤ now →
      getItem (getEvent (exec (Cmd.sweep now) st).1 eid) iid
        = some { item with status := ItemStatus.closed, endTime := none }) := by
  refine ⟨?_, ?_, ?_⟩
  · intro st sid eid iid s ev item t a nm now hs hev hit hET ht0 hle
    have hgi : getItem (getEvent st eid) iid = some item := by rw [hev]; exact hit
    have hP : deadlinePassed item.endTime now = true := by
      rw [hET]
      simp only [deadlinePassed]
      rw [if_neg ht0]
      exact decide_eq_true hle
    simp only [exec, placeBid, hs, hev, hit, hP]
    by_cases hrole : s.role ≠ Role.bidder
    · rw [if_pos hrole]
      exact ⟨by simp, item, hgi, rfl, rfl, rfl⟩
    · rw [if_neg hrole]
      by_cases hj : s.eventId ≠ some ev.id
      · rw [if_pos hj]
        exact ⟨by simp, item, hgi, rfl, rfl, rfl⟩
      · rw [if_neg hj, if_pos trivial]
        split_ifs with hA hB
        · exact ⟨by simp, item, hgi, rfl, rfl, rfl⟩
        · exact ⟨by simp, item, hgi, rfl, rfl, rfl⟩
        · refine ⟨by simp, { item with status := ItemStatus.closed, endTime := none },
            ?_, rfl, rfl, rfl⟩
          dsimp only
          rw [getItem_updItem st eid iid]
          · rw [hgi, Option.map_some']
          · intro it
            rfl
  · intro st sid eid iid s ev item t d a nm now hs hrole hev hit hj hl hd hdn hopen
      hET ht0 hle
    have hgi : getItem (getEvent st eid) iid = some item := by rw [hev]; exact hit
    have hP : deadlinePassed item.endTime now = true := by
      rw [hET]
      simp only [deadlinePassed]
      rw [if_neg ht0]
      exact decide_eq_true hle
    have hne : ¬ (Role.bidder ≠ Role.bidder) := fun h => h rfl
    simp only [exec, placeBid, hs, hrole, hev, hit, hj, hl, hd, hP]
    rw [if_neg hne, if_neg (fun h => h rfl), if_pos hdn, if_neg (by simp),
      if_neg (by simp [hopen]), if_pos trivial]
    constructor
    · rfl
    · dsimp only
      rw [getItem_updItem st eid iid]
      · rw [hgi, Option.map_some']
      · intro it
        rfl
  · intro st eid iid ev item t now hev hit hopen hET ht0 hle
    have hgi : getItem (getEvent st eid) iid = some item := by rw [hev]; exact hit
    have hP : deadlinePassed item.endTime now = true := by
      rw [hET]
      simp only [deadlinePassed]
      rw [if_neg ht0]
      exact decide_eq_true hle
    have hs1 : sweepItem now item
        = { item with status := ItemStatus.closed, endTime := none } := by
      simp only [sweepItem]
      split_ifs with hA hB
      · exact hB.1.elim
      · rfl
      · exact absurd ⟨hopen, hP⟩ hA
      · exact absurd ⟨hopen, hP⟩ hA
    rw [getItem_sweepState, hgi, Option.map_some', hs1]

/-- Witness for `expired_deadline_rule`: at the deadline instant, a bid by
the joined bidder fails with the window-closed error and lazily closes the
item; an uninvolved sweep tick closes it the same way. -/
theorem expired_deadline_rule_witness :
    (exec (Cmd.placeBid 2 1 1 (JsNum.fin 200) none 61000) (run trTimed)).2
      = some Err.timeUp
    ∧ getItem (getEvent (exec (Cmd.placeBid 2 1 1 (JsNum.fin 200) none 61000)
        (run trTimed)).1 1) 1
      = some { timedItem with status := ItemStatus.closed, endTime := none }
    ∧ getItem (getEvent (exec (Cmd.sweep 61000) (run trTimed)).1 1) 1
      = some { timedItem with status := ItemStatus.closed, endTime := none } := by
  have hB := expired_deadline_rule.2.1 (run trTimed) 2 1 1 aliceSession
    ⟨1, "Estate Sale", "Hall A", false, "", [timedItem], 0, none, ["alice"], true⟩
    timedItem 61000 "alice" (JsNum.fin 200) none 61000
    (by decide) rfl (by decide) (by decide) rfl rfl rfl (by decide) (by decide)
    (by decide) (by decide) (by decide)
  have hC := expired_deadline_rule.2.2 (run trTimed) 1 1
    ⟨1, "Estate Sale", "Hall A", false, "", [timedItem], 0, none, ["alice"], true⟩
    timedItem 61000 61000 (by decide) (by decide) (by decide) (by decide)
    (by decide) (by decide)
  refine ⟨?_, hB.2, hC⟩
  rw [hB.1]

end Auction
